import Mathlib

set_option maxRecDepth 16384

set_option exponentiation.threshold 1100

/-!
Verification of the streaming CSV ingestion and validation pipeline of the
stock-records service (`src/middlewares/fileuploader.middleware.js`) and of
the insertion controller (`insertValidRecords`).

JavaScript strings are modelled as `String`/`List Char`; a parsed CSV row is
the association list `csv-parser` builds by assigning `obj[headers[i]] =
cells[i]` in order; the callback-style stream pipeline is modelled as the
list of result objects it passes to its callback, in emission order, over an
error-free stream that fired one `headers` event.  Numeric magnitudes are
kept exact as `mantissa × 10^exp`, with IEEE-754 binary64 overflow expressed
by the exact rounding threshold `2^1024 - 2^970`.
-/

/-- The whitespace characters JavaScript trimming and string-to-number
conversion skip (the ASCII members of `WhiteSpace ∪ LineTerminator`: space,
tab, line feed, vertical tab, form feed, carriage return; the CSV fields at
hand contain no exotic Unicode spaces). -/
def isJsWhitespace (c : Char) : Bool :=
  c.toNat = 32 || c.toNat = 9 || c.toNat = 10 || c.toNat = 11 || c.toNat = 12 || c.toNat = 13

def jsTrimList (l : List Char) : List Char :=
  ((l.dropWhile isJsWhitespace).reverse.dropWhile isJsWhitespace).reverse

/-- `String.prototype.trim()`, as applied to each header name. -/
def jsTrim (s : String) : String := ⟨jsTrimList s.data⟩

/-- The `[0-9]` character class. -/
def isDigitChar (c : Char) : Bool := 48 ≤ c.toNat && c.toNat ≤ 57

def digitVal (c : Char) : Nat := c.toNat - 48

/-- The natural number denoted by a digit string (most significant first). -/
def digitsToNat (l : List Char) : Nat := l.foldl (fun a c => 10 * a + digitVal c) 0

/-- Strip one leading `+`/`-` sign, as both `parseFloat` and the
`StrDecimalLiteral` grammar allow. -/
def stripSign : List Char → List Char
  | [] => []
  | c :: r => if c = '+' || c = '-' then r else c :: r

def isNegSign : List Char → Bool
  | [] => false
  | c :: _ => c = '-'

/-- Does `l` (already trimmed) start with a non-empty prefix `parseFloat`
can interpret: after an optional sign, a digit, a dot followed by a digit,
or the literal `Infinity`?  `parseFloat(v)` is `NaN` exactly when no such
prefix exists, and `!isNaN(parseFloat(v))` is all the source inspects. -/
def hasFloatPrefix (l : List Char) : Bool :=
  match stripSign l with
  | [] => false
  | c :: rest =>
    isDigitChar c ||
    (c = '.' && (match rest with | d :: _ => isDigitChar d | [] => false)) ||
    List.isPrefixOf "Infinity".data (c :: rest)

/-- The result of JavaScript `Number(string)`, keeping the exact magnitude
as `mantissa × 10^exp` (the sign is dropped: the pipeline only ever asks
whether the result is finite, which is sign-independent). -/
inductive JsNum where
  | nan : JsNum
  | infinite : JsNum
  | fin : Nat → Int → JsNum
deriving DecidableEq

/-- Split an optional fraction part `.digits` off the front. -/
def fracSplit : List Char → List Char × List Char
  | '.' :: rest => (rest.takeWhile isDigitChar, rest.dropWhile isDigitChar)
  | l => ([], l)

/-- Whole-string exponent part: empty, or `e`/`E`, an optional sign and at
least one digit. -/
def expValue? : List Char → Option Int
  | [] => some 0
  | e :: rest =>
    if e = 'e' || e = 'E' then
      let body := stripSign rest
      let ed := body.takeWhile isDigitChar
      let r3 := body.dropWhile isDigitChar
      if ed.isEmpty || !r3.isEmpty then none
      else if isNegSign rest then some (-(digitsToNat ed : Int)) else some (digitsToNat ed : Int)
    else none

/-- Whole-string match of the digit-bearing `StrUnsignedDecimalLiteral`
productions (`digits [. digits] [exp]` and `. digits [exp]`), returning the
mantissa and decimal exponent of the denoted value. -/
def decValue? (l : List Char) : Option (Nat × Int) :=
  let ip := l.takeWhile isDigitChar
  let r1 := l.dropWhile isDigitChar
  let fp := (fracSplit r1).1
  let r2 := (fracSplit r1).2
  if ip.isEmpty && fp.isEmpty then none
  else
    match expValue? r2 with
    | some e => some (digitsToNat ip * 10 ^ fp.length + digitsToNat fp, e - (fp.length : Int))
    | none => none

/-- Whole-string `StrDecimalLiteral`: an optionally signed `Infinity` or an
optionally signed digit-bearing decimal numeral. -/
def strDecimal? (l : List Char) : Option JsNum :=
  let body := stripSign l
  if body = "Infinity".data then some JsNum.infinite
  else
    match decValue? body with
    | some p => some (JsNum.fin p.1 p.2)
    | none => none

def hexDigitVal? (c : Char) : Option Nat :=
  if 48 ≤ c.toNat && c.toNat ≤ 57 then some (c.toNat - 48)
  else if 97 ≤ c.toNat && c.toNat ≤ 102 then some (c.toNat - 87)
  else if 65 ≤ c.toNat && c.toNat ≤ 70 then some (c.toNat - 55)
  else none

/-- At least one digit, all valid for `radix`, read as a base-`radix`
numeral. -/
def radixDigits? (radix : Nat) (l : List Char) : Option Nat :=
  l.foldl
    (fun acc c =>
      match acc, hexDigitVal? c with
      | some a, some d => if d < radix then some (radix * a + d) else none
      | _, _ => none)
    (if l.isEmpty then none else some 0)

/-- Whole-string `NonDecimalIntegerLiteral`: `0x`/`0X`, `0o`/`0O` or
`0b`/`0B` followed by digits of the corresponding radix (no sign). -/
def nonDecimal? : List Char → Option Nat
  | '0' :: c :: rest =>
    if c = 'x' || c = 'X' then radixDigits? 16 rest
    else if c = 'o' || c = 'O' then radixDigits? 8 rest
    else if c = 'b' || c = 'B' then radixDigits? 2 rest
    else none
  | _ => none

/-- JavaScript `Number(string)` — the `ToNumber` coercion the global
`isFinite` applies to a string argument: trim, empty becomes `0`, otherwise
the string must wholly match `StrNumericLiteral`. -/
def jsToNumber (s : String) : JsNum :=
  let t := jsTrimList s.data
  if t.isEmpty then JsNum.fin 0 0
  else
    match nonDecimal? t with
    | some n => JsNum.fin n 0
    | none =>
      match strDecimal? t with
      | some j => j
      | none => JsNum.nan

/-- Exact magnitudes of at least `2^1024 - 2^970` round (to nearest, ties
to even) to `Infinity` in IEEE-754 binary64; strictly smaller ones stay
finite.  `2^1024 - 2^970 = 2^970 * (2^54 - 1)`. -/
def overflowThreshold : Nat := 2 ^ 970 * (2 ^ 54 - 1)

/-- Is the exact value `m × 10^e` finite once converted to binary64? -/
def magnitudeIsFinite (m : Nat) (e : Int) : Bool :=
  if 0 ≤ e then m * 10 ^ e.toNat < overflowThreshold
  else m < overflowThreshold * 10 ^ (-e).toNat

/-- The global `isFinite(value)` on a string argument. -/
def jsIsFinite (s : String) : Bool :=
  match jsToNumber s with
  | JsNum.fin m e => magnitudeIsFinite m e
  | _ => false

/-- `!isNaN(parseFloat(value))`. -/
def parseFloatDefined (s : String) : Bool := hasFloatPrefix (jsTrimList s.data)

/-- `const isNumeric = (value) => !isNaN(parseFloat(value)) && isFinite(value);` -/
def isNumeric (s : String) : Bool := parseFloatDefined s && jsIsFinite s

def isLeapYear (y : Nat) : Bool := (y % 4 = 0 && !(y % 100 = 0)) || y % 400 = 0

def daysInMonth (y m : Nat) : Nat :=
  if m = 2 then (if isLeapYear y then 29 else 28)
  else if m = 4 || m = 6 || m = 9 || m = 11 then 30
  else 31

/-- `moment(value, "YYYY-MM-DD", true).isValid()`: in strict mode the
string must be exactly four digits, `-`, two digits, `-`, two digits (any
skipped or leftover characters invalidate the parse), and the fields must
form a real proleptic-Gregorian calendar date — moment flags month `00` or
`13`-up, day `00`, and overflow days such as Feb 30 as invalid. -/
def isValidDate (s : String) : Bool :=
  match s.data with
  | [y1, y2, y3, y4, h1, m1, m2, h2, d1, d2] =>
    isDigitChar y1 && isDigitChar y2 && isDigitChar y3 && isDigitChar y4 &&
    h1 = '-' && h2 = '-' &&
    isDigitChar m1 && isDigitChar m2 && isDigitChar d1 && isDigitChar d2 &&
    (let y := 1000 * digitVal y1 + 100 * digitVal y2 + 10 * digitVal y3 + digitVal y4
     let m := 10 * digitVal m1 + digitVal m2
     let d := 10 * digitVal d1 + digitVal d2
     decide (1 ≤ m) && decide (m ≤ 12) && decide (1 ≤ d) && decide (d ≤ daysInMonth y m))
  | _ => false

/-- The `requiredColumns` list of the middleware. -/
def requiredColumns : List String :=
  ["Date", "Symbol", "Series", "Prev Close", "Open", "High", "Low", "Last",
   "Close", "VWAP", "Volume", "Turnover", "Trades", "Deliverable Volume", "%Deliverble"]

/-- The columns the `data` handler destructures and checks with `isNumeric`,
in source order. -/
def numericFields : List String :=
  ["Prev Close", "Open", "High", "Low", "Last", "Close", "VWAP", "Volume",
   "Turnover", "Trades", "Deliverable Volume", "%Deliverble"]

/-- A parsed CSV row: the object `csv-parser` hands to the `data` handler. -/
abbrev Row := List (String × String)

/-- Property lookup on a row object.  With duplicate keys the later
assignment wins, hence the lookup from the right. -/
def rowLookup (r : Row) (k : String) : Option String := List.lookup k r.reverse

/-- The row object for one data line: cell `i` is stored under the raw
(untrimmed) header name `i`; surplus cells land under placeholder keys that
never collide with a required column name and are dropped here. -/
def mkRow (headers : List String) (cells : List String) : Row := headers.zip cells

/-- The `Date` check on a destructured field.  A missing key destructures to
`undefined`, and `moment(undefined, "YYYY-MM-DD", true)` stringifies it to
`"undefined"`, which fails the strict parse. -/
def dateCheckOpt : Option String → Bool
  | some v => isValidDate v
  | none => false

/-- The numeric check on a destructured field.  `parseFloat(undefined)` is
`NaN`, so a missing key fails the check instead of faulting. -/
def isNumericOpt : Option String → Bool
  | some v => isNumeric v
  | none => false

/-- The per-row `isValid` flag: set to `false` when the `Date` check or any
of the twelve destructured numeric field checks fails. -/
def rowIsValid (r : Row) : Bool :=
  dateCheckOpt (rowLookup r "Date") &&
    numericFields.all (fun c => isNumericOpt (rowLookup r c))

/-- One invocation of the `validateCSVContent` callback: the header-failure
object `{success:false, message, missingColumns}` or the end-of-stream
summary `{success:true, totalRecords, successfulRecords, failedRecords,
validRows, invalidRows}`. -/
inductive CbResult where
  | missingCols (message : String) (missingColumns : List String) : CbResult
  | summary (totalRecords successfulRecords failedRecords : Nat)
      (validRows invalidRows : List Row) : CbResult
deriving DecidableEq

/-- The event stream of one parsed upload: the raw header names of the one
`headers` event, then the cell lists of the `data` events, in order. -/
structure CsvInput where
  headers : List String
  rows : List (List String)
deriving DecidableEq

/-- `requiredColumns.filter((col) => !headersSet.has(col))` where
`headersSet` holds every `header.trim()`. -/
def missingColumnsOf (input : CsvInput) : List String :=
  requiredColumns.filter (fun c => !(input.headers.map jsTrim).contains c)

def dataRowsOf (input : CsvInput) : List Row := input.rows.map (mkRow input.headers)

def validRowsOf (input : CsvInput) : List Row :=
  ((dataRowsOf input).partition rowIsValid).1

def invalidRowsOf (input : CsvInput) : List Row :=
  ((dataRowsOf input).partition rowIsValid).2

/-- `validateCSVContent`, as the list of results passed to `cb` over an
error-free stream.  The `headers` handler fires first; its `return cb(...)`
only leaves the handler, so the stream keeps flowing: every `data` row is
still folded into the valid/invalid accumulators and the `end` handler
reports the summary unconditionally. -/
def validateCSVContent (input : CsvInput) : List CbResult :=
  let missing := missingColumnsOf input
  let valid := validRowsOf input
  let invalid := invalidRowsOf input
  (if missing.isEmpty then []
   else [CbResult.missingCols "Missing required columns" missing]) ++
  [CbResult.summary (valid.length + invalid.length) valid.length invalid.length valid invalid]

/-- The last result the pipeline hands to its callback. -/
def terminalResult (input : CsvInput) : Option CbResult :=
  (validateCSVContent input).getLast?

/-- The persisted shape built for `RecordModel.insertMany`, field values
read off the accepted row object (`undefined` when a key is absent). -/
structure PersistedRecord where
  date : Option String
  symbol : Option String
  series : Option String
  prev_close : Option String
  open_ : Option String
  high : Option String
  low : Option String
  last : Option String
  close : Option String
  vwap : Option String
  volume : Option String
  turnover : Option String
  trades : Option String
  deliverable : Option String
  percentage_deliverable : Option String
deriving DecidableEq

/-- The column-name-to-field-name remapping of `insertValidRecords`
(`open` is a reserved word here, hence `open_`). -/
def mapRowToRecord (r : Row) : PersistedRecord :=
  { date := rowLookup r "Date"
    symbol := rowLookup r "Symbol"
    series := rowLookup r "Series"
    prev_close := rowLookup r "Prev Close"
    open_ := rowLookup r "Open"
    high := rowLookup r "High"
    low := rowLookup r "Low"
    last := rowLookup r "Last"
    close := rowLookup r "Close"
    vwap := rowLookup r "VWAP"
    volume := rowLookup r "Volume"
    turnover := rowLookup r "Turnover"
    trades := rowLookup r "Trades"
    deliverable := rowLookup r "Deliverable Volume"
    percentage_deliverable := rowLookup r "%Deliverble" }

/-- What the insertion controller does before any database response comes
back: answer HTTP 400 without touching the database, or call
`RecordModel.insertMany` on the mapped rows. -/
inductive InsertAction where
  | respondNoValidRows : InsertAction
  | callInsertMany (records : List PersistedRecord) : InsertAction
deriving DecidableEq

/-- `insertValidRecords`: reads `req.validRows || []`; a non-empty list is
mapped to the persisted field names and handed to `insertMany`, otherwise
the controller answers 400 "No valid rows to insert into the database". -/
def insertValidRecords (reqValidRows : Option (List Row)) : InsertAction :=
  let validRows := reqValidRows.getD []
  if validRows.length > 0 then InsertAction.callInsertMany (validRows.map mapRowToRecord)
  else InsertAction.respondNoValidRows

/-- The §8.5 missing-column scenario: the 14-column header without
`Prev Close`, followed by one otherwise well-formed data row. -/
def headerMissingPrevClose : List String :=
  ["Date", "Symbol", "Series", "Open", "High", "Low", "Last",
   "Close", "VWAP", "Volume", "Turnover", "Trades", "Deliverable Volume", "%Deliverble"]

def c1Cells : List String :=
  ["2024-10-22", "AAPL", "EQ", "152", "153", "149", "151", "150.5",
   "151.25", "1000000", "150000000", "1000", "800000", "80"]

def c1Input : CsvInput := ⟨headerMissingPrevClose, [c1Cells]⟩

def wellFormedCells : List String :=
  ["2024-10-22", "AAPL", "EQ", "150", "152", "153", "149", "151", "150.5",
   "151.25", "1000000", "150000000", "1000", "800000", "80"]

def badDateCells : List String :=
  ["22-10-2024", "AAPL", "EQ", "150", "152", "153", "149", "151", "150.5",
   "151.25", "1000000", "150000000", "1000", "800000", "80"]

def c3WitnessInput : CsvInput := ⟨requiredColumns, [wellFormedCells, badDateCells]⟩

def c9WitnessInput : CsvInput := ⟨requiredColumns, [badDateCells]⟩

/-- Merge two index-tagged sequences by ascending original index. -/
def mergeByIndex : List (Nat × Row) → List (Nat × Row) → List (Nat × Row)
  | [], ys => ys
  | x :: xs, [] => x :: xs
  | x :: xs, y :: ys =>
    if x.1 ≤ y.1 then x :: mergeByIndex xs (y :: ys)
    else y :: mergeByIndex (x :: xs) ys
termination_by a b => a.length + b.length

def paddedSymbolHeader : List String :=
  ["Date", " Symbol", "Series", "Prev Close", "Open", "High", "Low", "Last",
   "Close", "VWAP", "Volume", "Turnover", "Trades", "Deliverable Volume", "%Deliverble"]

def c10CxInput : CsvInput := ⟨paddedSymbolHeader, [wellFormedCells]⟩

def paddedDateHeader : List String :=
  [" Date", "Symbol", "Series", "Prev Close", "Open", "High", "Low", "Last",
   "Close", "VWAP", "Volume", "Turnover", "Trades", "Deliverable Volume", "%Deliverble"]

def c10WitnessInput : CsvInput := ⟨paddedDateHeader, [wellFormedCells]⟩

def digitChar (n : Nat) : Char := Char.ofNat (48 + n)

def pad2 (n : Nat) : String := ⟨[digitChar (n / 10 % 10), digitChar (n % 10)]⟩

def pad4 (n : Nat) : String :=
  ⟨[digitChar (n / 1000 % 10), digitChar (n / 100 % 10), digitChar (n / 10 % 10),
    digitChar (n % 10)]⟩

/-- Spec-side reading of §4.1: the value is the zero-padded `YYYY-MM-DD`
rendering of a real proleptic-Gregorian calendar date (4-digit year, real
month, real day of that month). -/
def IsRealDateString (s : String) : Prop :=
  ∃ y m d : Nat, y ≤ 9999 ∧ 1 ≤ m ∧ m ≤ 12 ∧ 1 ≤ d ∧ d ≤ daysInMonth y m ∧
    s = pad4 y ++ "-" ++ pad2 m ++ "-" ++ pad2 d

/-- Spec-side reading of §4.1's "parses as a finite decimal number": the
trimmed value wholly matches the signed digit-bearing decimal-numeral
grammar and its exact value stays below the binary64 overflow bound. -/
def parsesAsFiniteDecimal (s : String) : Bool :=
  match strDecimal? (jsTrimList s.data) with
  | some (JsNum.fin m e) => magnitudeIsFinite m e
  | _ => false

/-- The other `StrNumericLiteral` alternative `Number(string)` accepts: a
hexadecimal, octal or binary integer literal, finite after conversion. -/
def parsesAsFiniteNonDecimal (s : String) : Bool :=
  match nonDecimal? (jsTrimList s.data) with
  | some n => magnitudeIsFinite n 0
  | none => false

/-! ## Theorems -/

theorem validRowsOf_eq_filter (input : CsvInput) :
    validRowsOf input = (dataRowsOf input).filter rowIsValid := by
  simp [validRowsOf, List.partition_eq_filter_filter]

theorem invalidRowsOf_eq_filter (input : CsvInput) :
    invalidRowsOf input = (dataRowsOf input).filter (fun r => !rowIsValid r) := by
  simp only [invalidRowsOf, List.partition_eq_filter_filter]
  rfl

theorem length_filter_add_length_not {α : Type} (p : α → Bool) (l : List α) :
    (l.filter p).length + (l.filter (fun a => !p a)).length = l.length := by
  induction l with
  | nil => rfl
  | cons h t ih => cases hp : p h <;> simp [List.filter_cons, hp, ← ih] <;> omega

theorem terminalResult_eq (input : CsvInput) :
    terminalResult input =
      some (CbResult.summary ((validRowsOf input).length + (invalidRowsOf input).length)
        (validRowsOf input).length (invalidRowsOf input).length
        (validRowsOf input) (invalidRowsOf input)) := by
  unfold terminalResult validateCSVContent
  cases h : (missingColumnsOf input).isEmpty <;> simp [h]

theorem rowIsValid_false_of_all_false (r : Row) (c : String) (hc : c ∈ numericFields)
    (h : isNumericOpt (rowLookup r c) = false) : rowIsValid r = false := by
  unfold rowIsValid
  have hall : numericFields.all (fun c => isNumericOpt (rowLookup r c)) = false :=
    List.all_eq_false.mpr ⟨c, hc, by simp [h]⟩
  rw [hall, Bool.and_false]

theorem lookup_eq_none_of_no_key (k : String) :
    ∀ l : List (String × String), (∀ p ∈ l, p.1 ≠ k) → List.lookup k l = none := by
  intro l
  induction l with
  | nil => intro; rfl
  | cons p t ih =>
    intro h
    obtain ⟨k1, v1⟩ := p
    have hk : k ≠ k1 := fun he => h (k1, v1) (List.mem_cons_self _ _) he.symm
    have hb : (k == k1) = false := beq_eq_false_iff_ne.mpr hk
    simp [List.lookup, hb]
    intro a b hab he
    exact h (a, b) (List.mem_cons_of_mem _ hab) he.symm

theorem rowLookup_mkRow_none (headers cells : List String) (c : String)
    (h : ∀ x ∈ headers, x ≠ c) : rowLookup (mkRow headers cells) c = none := by
  unfold rowLookup mkRow
  apply lookup_eq_none_of_no_key
  intro p hp
  have hmem : p ∈ headers.zip cells := List.mem_reverse.mp hp
  obtain ⟨k1, v1⟩ := p
  exact h k1 (List.of_mem_zip hmem).1

/-- C1: the header gate does emit `{success:false, message:"Missing required
columns", missingColumns:["Prev Close"]}` first, but the `return cb(...)`
in the `headers` handler does not destroy the stream: the data row is still
consumed and classified (`failedRecords = 1`) and a second terminal result
`{success:true, ...}` is emitted at stream end — the code contradicts the
specified stop-consuming behaviour. -/
theorem claim1_header_rejection_keeps_consuming :
    validateCSVContent c1Input =
      [CbResult.missingCols "Missing required columns" ["Prev Close"],
       CbResult.summary 1 0 1 [] [mkRow headerMissingPrevClose c1Cells]] := by
  decide

/-- C3: when every required column is present (after trimming) and the
stream ends without error, the pipeline emits exactly one terminal summary
with `success = true`, `totalRecords = successfulRecords + failedRecords =
number of data rows`, `successfulRecords = |validRows|` and
`failedRecords = |invalidRows|`. -/
theorem claim3_summary_invariants (input : CsvInput)
    (hok : missingColumnsOf input = []) :
    ∃ t s f v i, validateCSVContent input = [CbResult.summary t s f v i] ∧
      t = s + f ∧ t = input.rows.length ∧ s = v.length ∧ f = i.length := by
  refine ⟨(validRowsOf input).length + (invalidRowsOf input).length,
    (validRowsOf input).length, (invalidRowsOf input).length,
    validRowsOf input, invalidRowsOf input, ?_, rfl, ?_, rfl, rfl⟩
  · simp [validateCSVContent, hok]
  · rw [validRowsOf_eq_filter, invalidRowsOf_eq_filter, length_filter_add_length_not]
    simp [dataRowsOf]

theorem claim3_witness :
    missingColumnsOf c3WitnessInput = [] ∧
    ∃ t s f v i, validateCSVContent c3WitnessInput = [CbResult.summary t s f v i] ∧
      t = s + f ∧ t = c3WitnessInput.rows.length ∧ s = v.length ∧ f = i.length :=
  ⟨by decide, claim3_summary_invariants c3WitnessInput (by decide)⟩

/-- C8: a lookup miss (absent column in a row) makes the date check and the
numeric check return `false`, so the row is classified invalid rather than
raising a fault, and the terminal summary still accounts for every data row
of the stream. -/
theorem claim8_missing_field_is_failure (r : Row) :
    dateCheckOpt none = false ∧ isNumericOpt none = false ∧
    (rowLookup r "Date" = none → rowIsValid r = false) ∧
    (∀ c, c ∈ numericFields → rowLookup r c = none → rowIsValid r = false) ∧
    (∀ input : CsvInput, ∃ t s f v i,
      terminalResult input = some (CbResult.summary t s f v i) ∧
      t = (dataRowsOf input).length) := by
  refine ⟨rfl, rfl, ?_, ?_, ?_⟩
  · intro h
    unfold rowIsValid
    rw [h]
    rfl
  · intro c hc h
    exact rowIsValid_false_of_all_false r c hc (by rw [h]; rfl)
  · intro input
    refine ⟨_, _, _, _, _, terminalResult_eq input, ?_⟩
    rw [validRowsOf_eq_filter, invalidRowsOf_eq_filter, length_filter_add_length_not]

theorem claim8_witness : rowIsValid [("Open", "5")] = false :=
  (claim8_missing_field_is_failure [("Open", "5")]).2.2.1 (by decide)

/-- C9: with a successful ingestion result in hand, the insertion
controller answers 400 "no valid rows" and never reaches `insertMany` when
the accepted set is empty, and calls `insertMany` on exactly the accepted
rows mapped to the persisted field names when it is not. -/
theorem claim9_insert_gate (input : CsvInput) (t s f : Nat) (v i : List Row)
    (hok : missingColumnsOf input = [])
    (hterm : terminalResult input = some (CbResult.summary t s f v i)) :
    (v = [] → insertValidRecords (some v) = InsertAction.respondNoValidRows) ∧
    (v ≠ [] → insertValidRecords (some v) = InsertAction.callInsertMany (v.map mapRowToRecord)) := by
  constructor
  · intro hv
    subst hv
    rfl
  · intro hv
    have hpos : 0 < v.length := List.length_pos.mpr hv
    simp [insertValidRecords, hpos]

theorem claim9_witness :
    (([] : List Row) = [] → insertValidRecords (some []) = InsertAction.respondNoValidRows) ∧
    (([] : List Row) ≠ [] →
      insertValidRecords (some []) = InsertAction.callInsertMany (([] : List Row).map mapRowToRecord)) :=
  claim9_insert_gate c9WitnessInput 1 0 1 [] [mkRow requiredColumns badDateCells]
    (by decide) (by decide)

theorem count_filter_add {α : Type} [BEq α] [LawfulBEq α] (p : α → Bool) (l : List α) (a : α) :
    (l.filter p).count a + (l.filter (fun x => !p x)).count a = l.count a := by
  induction l with
  | nil => rfl
  | cons h t ih =>
    cases hp : p h <;> cases hba : (h == a) <;>
      simp [List.filter_cons, hp, List.count_cons, hba, ← ih] <;> omega

/-- C4: every data row is classified — appended to `validRows` exactly when
its `Date` value passes the date check and every destructured numeric field
passes `isNumeric`, appended to `invalidRows` otherwise — and the
occurrence counts add up, so no row lands in both sequences or is dropped,
and a failing row never stops later rows from being classified. -/
theorem claim4_row_classification (input : CsvInput) (t s f : Nat) (v i : List Row)
    (hok : missingColumnsOf input = [])
    (hterm : terminalResult input = some (CbResult.summary t s f v i)) :
    (∀ r, r ∈ v ↔ r ∈ dataRowsOf input ∧
      (dateCheckOpt (rowLookup r "Date") &&
        numericFields.all (fun c => isNumericOpt (rowLookup r c))) = true) ∧
    (∀ r, r ∈ i ↔ r ∈ dataRowsOf input ∧
      (dateCheckOpt (rowLookup r "Date") &&
        numericFields.all (fun c => isNumericOpt (rowLookup r c))) = false) ∧
    (∀ r : Row, v.count r + i.count r = (dataRowsOf input).count r) := by
  rw [terminalResult_eq] at hterm
  simp only [Option.some.injEq, CbResult.summary.injEq] at hterm
  obtain ⟨-, -, -, hv, hi⟩ := hterm
  subst hv hi
  refine ⟨?_, ?_, ?_⟩
  · intro r
    rw [validRowsOf_eq_filter]
    simp only [List.mem_filter]
    exact Iff.rfl
  · intro r
    rw [invalidRowsOf_eq_filter]
    simp only [List.mem_filter, Bool.not_eq_true']
    exact Iff.rfl
  · intro r
    rw [validRowsOf_eq_filter, invalidRowsOf_eq_filter]
    exact count_filter_add _ _ _

theorem claim4_witness :
    (∀ r, r ∈ [mkRow requiredColumns wellFormedCells] ↔ r ∈ dataRowsOf c3WitnessInput ∧
      (dateCheckOpt (rowLookup r "Date") &&
        numericFields.all (fun c => isNumericOpt (rowLookup r c))) = true) ∧
    (∀ r, r ∈ [mkRow requiredColumns badDateCells] ↔ r ∈ dataRowsOf c3WitnessInput ∧
      (dateCheckOpt (rowLookup r "Date") &&
        numericFields.all (fun c => isNumericOpt (rowLookup r c))) = false) ∧
    (∀ r : Row, List.count r [mkRow requiredColumns wellFormedCells] +
      List.count r [mkRow requiredColumns badDateCells] =
      List.count r (dataRowsOf c3WitnessInput)) :=
  claim4_row_classification c3WitnessInput 2 1 1
    [mkRow requiredColumns wellFormedCells] [mkRow requiredColumns badDateCells]
    (by decide) (by decide)

theorem mergeByIndex_nil_right : ∀ xs, mergeByIndex xs [] = xs := by
  intro xs
  cases xs <;> simp [mergeByIndex]

theorem mergeByIndex_cons_left (h : Nat × Row) (A B : List (Nat × Row))
    (hb : ∀ b ∈ B, h.1 < b.1) : mergeByIndex (h :: A) B = h :: mergeByIndex A B := by
  cases B with
  | nil => rw [mergeByIndex_nil_right, mergeByIndex_nil_right]
  | cons b B2 =>
    have hle : h.1 ≤ b.1 := le_of_lt (hb b (List.mem_cons_self _ _))
    simp [mergeByIndex, hle]

theorem mergeByIndex_cons_right (h : Nat × Row) (A B : List (Nat × Row))
    (ha : ∀ a ∈ A, h.1 < a.1) : mergeByIndex A (h :: B) = h :: mergeByIndex A B := by
  cases A with
  | nil => simp [mergeByIndex]
  | cons a A2 =>
    have h1 : ¬ a.1 ≤ h.1 := by
      have := ha a (List.mem_cons_self _ _)
      omega
    simp [mergeByIndex, h1]

theorem mergeByIndex_filter (p : Nat × Row → Bool) :
    ∀ l : List (Nat × Row), l.Pairwise (fun a b => a.1 < b.1) →
      mergeByIndex (l.filter p) (l.filter (fun x => !p x)) = l := by
  intro l
  induction l with
  | nil => intro _; simp [mergeByIndex]
  | cons h t ih =>
    intro hp
    rw [List.pairwise_cons] at hp
    obtain ⟨hall, ht⟩ := hp
    cases hph : p h
    · rw [List.filter_cons_of_neg (by simp [hph]), List.filter_cons_of_pos (by simp [hph])]
      rw [mergeByIndex_cons_right h _ _ fun a hafil => hall a (List.mem_of_mem_filter hafil)]
      rw [ih ht]
    · rw [List.filter_cons_of_pos (by simp [hph]), List.filter_cons_of_neg (by simp [hph])]
      rw [mergeByIndex_cons_left h _ _ fun b hbfil => hall b (List.mem_of_mem_filter hbfil)]
      rw [ih ht]

theorem enumFrom_pairwise_fst_lt (l : List Row) :
    ∀ n : Nat, (List.enumFrom n l).Pairwise (fun a b => a.1 < b.1) := by
  induction l with
  | nil => intro _; exact List.Pairwise.nil
  | cons h t ih =>
    intro n
    rw [show List.enumFrom n (h :: t) = (n, h) :: List.enumFrom (n + 1) t from rfl,
      List.pairwise_cons]
    exact ⟨fun p hp => (List.mem_enumFrom hp).1, ih (n + 1)⟩

theorem enumFrom_filter_map_snd (q : Row → Bool) (l : List Row) :
    ∀ n : Nat, ((List.enumFrom n l).filter (fun x => q x.2)).map Prod.snd = l.filter q := by
  induction l with
  | nil => intro _; rfl
  | cons h t ih =>
    intro n
    rw [show List.enumFrom n (h :: t) = (n, h) :: List.enumFrom (n + 1) t from rfl]
    cases hq : q h <;> simp [List.filter_cons, hq, ih (n + 1)]

/-- C5: `validRows` and `invalidRows` are the index-ordered projections of
the enumerated data rows, and merging the two index-tagged halves by
original index reconstructs the input's data-row sequence exactly. -/
theorem claim5_stable_partition (input : CsvInput) (t s f : Nat) (v i : List Row)
    (hok : missingColumnsOf input = [])
    (hterm : terminalResult input = some (CbResult.summary t s f v i)) :
    v = ((dataRowsOf input).enum.filter (fun x => rowIsValid x.2)).map Prod.snd ∧
    i = ((dataRowsOf input).enum.filter (fun x => !rowIsValid x.2)).map Prod.snd ∧
    mergeByIndex ((dataRowsOf input).enum.filter (fun x => rowIsValid x.2))
      ((dataRowsOf input).enum.filter (fun x => !rowIsValid x.2)) =
      (dataRowsOf input).enum := by
  rw [terminalResult_eq] at hterm
  simp only [Option.some.injEq, CbResult.summary.injEq] at hterm
  obtain ⟨-, -, -, hv, hi⟩ := hterm
  subst hv hi
  refine ⟨?_, ?_, ?_⟩
  · rw [validRowsOf_eq_filter,
      show (dataRowsOf input).enum = List.enumFrom 0 (dataRowsOf input) from rfl,
      enumFrom_filter_map_snd]
  · rw [invalidRowsOf_eq_filter,
      show (dataRowsOf input).enum = List.enumFrom 0 (dataRowsOf input) from rfl,
      enumFrom_filter_map_snd (fun r => !rowIsValid r)]
  · exact mergeByIndex_filter (fun x => rowIsValid x.2) _
      (enumFrom_pairwise_fst_lt (dataRowsOf input) 0)

theorem claim5_witness :
    [mkRow requiredColumns wellFormedCells] =
      ((dataRowsOf c3WitnessInput).enum.filter (fun x => rowIsValid x.2)).map Prod.snd ∧
    [mkRow requiredColumns badDateCells] =
      ((dataRowsOf c3WitnessInput).enum.filter (fun x => !rowIsValid x.2)).map Prod.snd ∧
    mergeByIndex ((dataRowsOf c3WitnessInput).enum.filter (fun x => rowIsValid x.2))
      ((dataRowsOf c3WitnessInput).enum.filter (fun x => !rowIsValid x.2)) =
      (dataRowsOf c3WitnessInput).enum :=
  claim5_stable_partition c3WitnessInput 2 1 1
    [mkRow requiredColumns wellFormedCells] [mkRow requiredColumns badDateCells]
    (by decide) (by decide)

/-- C10 (amended): when a *validated* column (`Date` or one of the twelve
numeric columns) appears in the raw header only in a padded form — so no raw
header equals the unpadded name — while the trimmed header set still passes
the gate, every data row's lookup for that column misses and every row is
classified invalid. -/
theorem claim10_padded_validated_header (input : CsvInput) (c : String)
    (hc : c ∈ "Date" :: numericFields)
    (habsent : ∀ h ∈ input.headers, h ≠ c)
    (hok : missingColumnsOf input = []) :
    validRowsOf input = [] ∧ invalidRowsOf input = dataRowsOf input := by
  have hrow : ∀ r ∈ dataRowsOf input, rowIsValid r = false := by
    intro r hr
    obtain ⟨cells, hcells, hmk⟩ := List.mem_map.mp hr
    have hnone : rowLookup r c = none := by
      rw [← hmk]
      exact rowLookup_mkRow_none _ _ _ habsent
    rcases List.mem_cons.mp hc with hdate | hnum
    · subst hdate
      unfold rowIsValid
      rw [hnone]
      rfl
    · exact rowIsValid_false_of_all_false _ c hnum (by rw [hnone]; rfl)
  constructor
  · rw [validRowsOf_eq_filter]
    exact List.filter_eq_nil_iff.mpr fun r hr => by simp [hrow r hr]
  · rw [invalidRowsOf_eq_filter]
    exact List.filter_eq_self.mpr fun r hr => by simp [hrow r hr]

/-- C10 counterexample: with required column `Symbol` present only as
`" Symbol"`, the trimmed header gate passes, yet the well-formed data row
does NOT fail validation — `Symbol` has no per-row check, so the row lands
in `validRows` — refuting "every data row fails validation for that column"
as stated for arbitrary required columns. -/
theorem claim10_counterexample :
    missingColumnsOf c10CxInput = [] ∧
    validRowsOf c10CxInput = [mkRow paddedSymbolHeader wellFormedCells] ∧
    invalidRowsOf c10CxInput = [] := by
  decide

theorem claim10_witness :
    validRowsOf c10WitnessInput = [] ∧
    invalidRowsOf c10WitnessInput = dataRowsOf c10WitnessInput :=
  claim10_padded_validated_header c10WitnessInput "Date" (by decide) (by decide) (by decide)

/-- C2 counterexample: the required columns other than `Date`, `Symbol` and
`Series` — exactly the columns the row handler checks with `isNumeric` —
number twelve, not nine as the claim states. -/
theorem claim2_counterexample :
    numericFields =
      requiredColumns.filter (fun c => !(c == "Date" || c == "Symbol" || c == "Series")) ∧
    numericFields.length = 12 ∧
    ¬ (requiredColumns.filter
        (fun c => !(c == "Date" || c == "Symbol" || c == "Series"))).length = 9 := by
  decide

theorem all_congr_of_mem {α : Type} (p q : α → Bool) :
    ∀ l : List α, (∀ a ∈ l, p a = q a) → l.all p = l.all q
  | [] => fun _ => rfl
  | x :: t => fun h => by
    rw [List.all_cons, List.all_cons, h x (List.mem_cons_self _ _),
      all_congr_of_mem p q t fun a ha => h a (List.mem_cons_of_mem _ ha)]

/-- C2 (amended): per-row validation tests exactly the fixed set consisting
of `Date` (date validator) and the twelve remaining required columns (all
but `Date`, `Symbol`, `Series`; numeric validator); `Symbol` and `Series`
get no per-row check, so the verdict depends only on the thirteen tested
lookups. -/
theorem claim2_validated_fields (r1 r2 : Row) :
    numericFields =
      requiredColumns.filter (fun c => !(c == "Date" || c == "Symbol" || c == "Series")) ∧
    numericFields.length = 12 ∧
    (∀ r : Row, rowIsValid r =
      (dateCheckOpt (rowLookup r "Date") &&
        numericFields.all (fun c => isNumericOpt (rowLookup r c)))) ∧
    (rowLookup r1 "Date" = rowLookup r2 "Date" →
      (∀ c ∈ numericFields, rowLookup r1 c = rowLookup r2 c) →
      rowIsValid r1 = rowIsValid r2) := by
  refine ⟨by decide, by decide, fun r => rfl, ?_⟩
  intro hd hn
  unfold rowIsValid
  rw [hd, all_congr_of_mem _ _ numericFields fun c hc => by rw [hn c hc]]

theorem claim2_witness :
    rowIsValid [("Date", "2024-10-22")] =
      rowIsValid [("Date", "2024-10-22"), ("Symbol", "AAPL")] :=
  (claim2_validated_fields [("Date", "2024-10-22")]
    [("Date", "2024-10-22"), ("Symbol", "AAPL")]).2.2.2 (by decide) (by decide)

theorem isDigitChar_digitChar (n : Nat) (h : n < 10) : isDigitChar (digitChar n) = true := by
  interval_cases n <;> decide

theorem digitVal_digitChar (n : Nat) (h : n < 10) : digitVal (digitChar n) = n := by
  interval_cases n <;> decide

theorem digitChar_digitVal (c : Char) (h : isDigitChar c = true) : digitChar (digitVal c) = c := by
  have h2 : 48 ≤ c.toNat := by
    simp only [isDigitChar, Bool.and_eq_true, decide_eq_true_eq] at h
    exact h.1
  unfold digitChar digitVal
  rw [show 48 + (c.toNat - 48) = c.toNat by omega, Char.ofNat_toNat]

theorem digitVal_lt_ten (c : Char) (h : isDigitChar c = true) : digitVal c < 10 := by
  simp only [isDigitChar, Bool.and_eq_true, decide_eq_true_eq] at h
  unfold digitVal
  omega

/-- The character sequence of a rendered date string. -/
theorem data_dateString (y m d : Nat) :
    (pad4 y ++ "-" ++ pad2 m ++ "-" ++ pad2 d).data =
      [digitChar (y / 1000 % 10), digitChar (y / 100 % 10), digitChar (y / 10 % 10),
       digitChar (y % 10), '-', digitChar (m / 10 % 10), digitChar (m % 10), '-',
       digitChar (d / 10 % 10), digitChar (d % 10)] := rfl

theorem daysInMonth_le_31 (y m : Nat) : daysInMonth y m ≤ 31 := by
  simp only [daysInMonth]
  split
  · split <;> omega
  · split <;> omega

/-- C6: the strict-mode date check accepts a string iff it is the exact
zero-padded `YYYY-MM-DD` rendering of a real calendar date; in particular it
rejects `2024-02-30` and `22-10-2024` and accepts `2024-10-22`. -/
theorem claim6_date_validator :
    (∀ s : String, isValidDate s = true ↔ IsRealDateString s) ∧
    isValidDate "2024-10-22" = true ∧
    isValidDate "2024-02-30" = false ∧
    isValidDate "22-10-2024" = false := by
  refine ⟨?_, by decide, by decide, by decide⟩
  intro s
  constructor
  · intro h
    unfold isValidDate at h
    split at h
    case h_2 => exact Bool.noConfusion h
    case h_1 c0 c1 c2 c3 c4 c5 c6 c7 c8 c9 hsd =>
      simp only [Bool.and_eq_true, decide_eq_true_eq] at h
      obtain ⟨⟨⟨⟨⟨⟨⟨⟨⟨⟨hd0, hd1⟩, hd2⟩, hd3⟩, hc4⟩, hc7⟩, hd5⟩, hd6⟩, hd8⟩, hd9⟩,
        ⟨⟨⟨hm1, hm2⟩, hdd1⟩, hdd2⟩⟩ := h
      have b0 := digitVal_lt_ten c0 hd0
      have b1 := digitVal_lt_ten c1 hd1
      have b2 := digitVal_lt_ten c2 hd2
      have b3 := digitVal_lt_ten c3 hd3
      have b5 := digitVal_lt_ten c5 hd5
      have b6 := digitVal_lt_ten c6 hd6
      have b8 := digitVal_lt_ten c8 hd8
      have b9 := digitVal_lt_ten c9 hd9
      refine ⟨1000 * digitVal c0 + 100 * digitVal c1 + 10 * digitVal c2 + digitVal c3,
        10 * digitVal c5 + digitVal c6, 10 * digitVal c8 + digitVal c9,
        by omega, hm1, hm2, hdd1, hdd2, ?_⟩
      apply String.ext
      rw [hsd, data_dateString]
      rw [show (1000 * digitVal c0 + 100 * digitVal c1 + 10 * digitVal c2 + digitVal c3) / 1000 % 10
           = digitVal c0 by omega,
         show (1000 * digitVal c0 + 100 * digitVal c1 + 10 * digitVal c2 + digitVal c3) / 100 % 10
           = digitVal c1 by omega,
         show (1000 * digitVal c0 + 100 * digitVal c1 + 10 * digitVal c2 + digitVal c3) / 10 % 10
           = digitVal c2 by omega,
         show (1000 * digitVal c0 + 100 * digitVal c1 + 10 * digitVal c2 + digitVal c3) % 10
           = digitVal c3 by omega,
         show (10 * digitVal c5 + digitVal c6) / 10 % 10 = digitVal c5 by omega,
         show (10 * digitVal c5 + digitVal c6) % 10 = digitVal c6 by omega,
         show (10 * digitVal c8 + digitVal c9) / 10 % 10 = digitVal c8 by omega,
         show (10 * digitVal c8 + digitVal c9) % 10 = digitVal c9 by omega,
         digitChar_digitVal c0 hd0, digitChar_digitVal c1 hd1, digitChar_digitVal c2 hd2,
         digitChar_digitVal c3 hd3, digitChar_digitVal c5 hd5, digitChar_digitVal c6 hd6,
         digitChar_digitVal c8 hd8, digitChar_digitVal c9 hd9, hc4, hc7]
  · rintro ⟨y, m, d, hy, hm1, hm2, hd1, hd2, rfl⟩
    have hd31 : d ≤ 31 := hd2.trans (daysInMonth_le_31 y m)
    have ey0 : digitVal (digitChar (y / 1000 % 10)) = y / 1000 % 10 :=
      digitVal_digitChar _ (by omega)
    have ey1 : digitVal (digitChar (y / 100 % 10)) = y / 100 % 10 :=
      digitVal_digitChar _ (by omega)
    have ey2 : digitVal (digitChar (y / 10 % 10)) = y / 10 % 10 :=
      digitVal_digitChar _ (by omega)
    have ey3 : digitVal (digitChar (y % 10)) = y % 10 := digitVal_digitChar _ (by omega)
    have em0 : digitVal (digitChar (m / 10 % 10)) = m / 10 % 10 :=
      digitVal_digitChar _ (by omega)
    have em1 : digitVal (digitChar (m % 10)) = m % 10 := digitVal_digitChar _ (by omega)
    have ed0 : digitVal (digitChar (d / 10 % 10)) = d / 10 % 10 :=
      digitVal_digitChar _ (by omega)
    have ed1 : digitVal (digitChar (d % 10)) = d % 10 := digitVal_digitChar _ (by omega)
    have ry : 1000 * (y / 1000 % 10) + 100 * (y / 100 % 10) + 10 * (y / 10 % 10) + y % 10 = y := by
      omega
    have rm : 10 * (m / 10 % 10) + m % 10 = m := by omega
    have rd : 10 * (d / 10 % 10) + d % 10 = d := by omega
    simp only [isValidDate, data_dateString, Bool.and_eq_true, decide_eq_true_eq]
    rw [ey0, ey1, ey2, ey3, em0, em1, ed0, ed1, ry, rm, rd]
    refine ⟨⟨⟨⟨⟨⟨⟨⟨⟨⟨isDigitChar_digitChar _ (by omega), isDigitChar_digitChar _ (by omega)⟩,
      isDigitChar_digitChar _ (by omega)⟩, isDigitChar_digitChar _ (by omega)⟩, trivial⟩,
      trivial⟩, isDigitChar_digitChar _ (by omega)⟩, isDigitChar_digitChar _ (by omega)⟩,
      isDigitChar_digitChar _ (by omega)⟩, isDigitChar_digitChar _ (by omega)⟩,
      ⟨⟨hm1, hm2⟩, hd1⟩, hd2⟩

theorem claim6_witness : IsRealDateString "2024-10-22" :=
  (claim6_date_validator.1 "2024-10-22").mp (by decide)

theorem stripSign_cons_of_not_sign (c : Char) (r : List Char)
    (h : (c = '+' || c = '-') = false) : stripSign (c :: r) = c :: r := by
  simp only [stripSign, h]
  rfl

theorem fracSplit_cons_ne (c : Char) (r : List Char) (h : ¬ c = '.') :
    fracSplit (c :: r) = ([], c :: r) := by
  unfold fracSplit
  split
  · next heq =>
    injection heq with h1 _
    exact absurd h1 h
  · rfl

theorem decValue?_nil : decValue? [] = none := rfl

theorem decValue?_none_head (c : Char) (rest : List Char)
    (hcd : isDigitChar c = false) (hcdot : ¬ c = '.') :
    decValue? (c :: rest) = none := by
  unfold decValue?
  simp [List.takeWhile_cons, List.dropWhile_cons, hcd, fracSplit_cons_ne c rest hcdot]

theorem decValue?_dot_none (rest : List Char)
    (h : List.takeWhile isDigitChar rest = []) : decValue? ('.' :: rest) = none := by
  unfold decValue?
  simp [List.takeWhile_cons, List.dropWhile_cons, fracSplit, h,
    (by decide : isDigitChar '.' = false)]

theorem decValue?_zero_nonnum (c : Char) (rest : List Char)
    (hcd : isDigitChar c = false) (hce1 : ¬ c = 'e') (hce2 : ¬ c = 'E')
    (hcdot : ¬ c = '.') : decValue? ('0' :: c :: rest) = none := by
  unfold decValue?
  simp [List.takeWhile_cons, List.dropWhile_cons, hcd,
    fracSplit_cons_ne c rest hcdot, expValue?, hce1, hce2,
    (by decide : isDigitChar '0' = true)]

theorem nonDecimal?_shape (l : List Char) (n : Nat) (h : nonDecimal? l = some n) :
    ∃ c rest, l = '0' :: c :: rest ∧ isDigitChar c = false ∧
      ¬ c = 'e' ∧ ¬ c = 'E' ∧ ¬ c = '.' ∧ ¬ c = '+' ∧ ¬ c = '-' := by
  unfold nonDecimal? at h
  split at h
  case h_2 => exact Option.noConfusion h
  case h_1 c rest =>
    have hc : c = 'x' ∨ c = 'X' ∨ c = 'o' ∨ c = 'O' ∨ c = 'b' ∨ c = 'B' := by
      by_contra hall
      push_neg at hall
      obtain ⟨n1, n2, n3, n4, n5, n6⟩ := hall
      simp [n1, n2, n3, n4, n5, n6] at h
    rcases hc with rfl | rfl | rfl | rfl | rfl | rfl <;>
      exact ⟨_, _, rfl, by decide, by decide, by decide, by decide, by decide, by decide⟩

theorem strDecimal?_none_of_nonDecimal (l : List Char) (n : Nat)
    (h : nonDecimal? l = some n) : strDecimal? l = none := by
  obtain ⟨c, rest, rfl, hcd, hce1, hce2, hcdot, -, -⟩ := nonDecimal?_shape _ _ h
  unfold strDecimal?
  rw [stripSign_cons_of_not_sign '0' _ (by decide)]
  rw [if_neg (by intro heq; injection heq with h1 _; exact absurd h1 (by decide))]
  rw [decValue?_zero_nonnum c rest hcd hce1 hce2 hcdot]

theorem hasFloatPrefix_of_nonDecimal (l : List Char) (n : Nat)
    (h : nonDecimal? l = some n) : hasFloatPrefix l = true := by
  obtain ⟨c, rest, rfl, -, -, -, -, -, -⟩ := nonDecimal?_shape _ _ h
  unfold hasFloatPrefix
  rw [stripSign_cons_of_not_sign '0' _ (by decide)]
  simp [(by decide : isDigitChar '0' = true)]

theorem strDecimal?_ne_nan (l : List Char) : ¬ strDecimal? l = some JsNum.nan := by
  simp only [strDecimal?]
  split
  · simp
  · split <;> simp

theorem decValue?_of_strDecimal (l : List Char) (m : Nat) (e : Int)
    (h : strDecimal? l = some (JsNum.fin m e)) :
    decValue? (stripSign l) = some (m, e) := by
  simp only [strDecimal?] at h
  split at h
  · exact absurd h (by simp)
  · split at h
    · next p hp =>
      rw [hp]
      simp only [Option.some.injEq, JsNum.fin.injEq] at h
      obtain ⟨h1, h2⟩ := h
      rw [← h1, ← h2]
    · exact Option.noConfusion h

theorem hasFloatPrefix_of_decValue (l : List Char) (p : Nat × Int)
    (h : decValue? (stripSign l) = some p) : hasFloatPrefix l = true := by
  unfold hasFloatPrefix
  cases hb : stripSign l with
  | nil =>
    rw [hb, decValue?_nil] at h
    exact Option.noConfusion h
  | cons c rest =>
    rw [hb] at h
    by_cases hcd : isDigitChar c = true
    · simp [hcd]
    · have hcd2 : isDigitChar c = false := by simpa using hcd
      by_cases hcdot : c = '.'
      · subst hcdot
        cases rest with
        | nil =>
          rw [decValue?_dot_none [] rfl] at h
          exact Option.noConfusion h
        | cons d rest2 =>
          by_cases hdd : isDigitChar d = true
          · simp [hdd]
          · have hdd2 : isDigitChar d = false := by simpa using hdd
            rw [decValue?_dot_none (d :: rest2) (by simp [List.takeWhile_cons, hdd2])] at h
            exact Option.noConfusion h
      · rw [decValue?_none_head c rest hcd2 hcdot] at h
        exact Option.noConfusion h

/-- C7 (amended): `isNumeric` accepts a string iff the trimmed value parses
as a finite decimal number OR as a finite hexadecimal/octal/binary integer
literal; in particular it rejects `NaN`, `Infinity`, the empty string, and
decimal values with trailing garbage such as `123abc`, while accepting
`0x10`. -/
theorem claim7_isNumeric_characterisation :
    (∀ s : String, isNumeric s = (parsesAsFiniteDecimal s || parsesAsFiniteNonDecimal s)) ∧
    isNumeric "NaN" = false ∧ isNumeric "Infinity" = false ∧
    isNumeric "" = false ∧ isNumeric "123abc" = false ∧ isNumeric "0x10" = true := by
  refine ⟨?_, by decide, by decide, by decide, by decide, by decide⟩
  intro s
  by_cases hte : (jsTrimList s.data).isEmpty = true
  · have htnil : jsTrimList s.data = [] := by simpa using hte
    simp [isNumeric, parseFloatDefined, jsIsFinite, jsToNumber, parsesAsFiniteDecimal,
      parsesAsFiniteNonDecimal, htnil, hasFloatPrefix, stripSign, strDecimal?,
      decValue?, nonDecimal?, (show fracSplit [] = ([], []) from rfl),
      (show expValue? [] = some 0 from rfl)]
  · have hird : (jsTrimList s.data).isEmpty = false := by simpa using hte
    simp only [isNumeric, parseFloatDefined, jsIsFinite, jsToNumber, parsesAsFiniteDecimal,
      parsesAsFiniteNonDecimal, hird, Bool.false_eq_true, if_false]
    cases hnd : nonDecimal? (jsTrimList s.data) with
    | some n =>
      rw [strDecimal?_none_of_nonDecimal _ _ hnd,
        hasFloatPrefix_of_nonDecimal _ _ hnd]
      simp
    | none =>
      cases hsd2 : strDecimal? (jsTrimList s.data) with
      | none => simp
      | some j =>
        cases j with
        | nan => exact absurd hsd2 (strDecimal?_ne_nan _)
        | infinite => simp
        | fin m e =>
          rw [hasFloatPrefix_of_decValue (jsTrimList s.data) (m, e)
            (decValue?_of_strDecimal _ _ _ hsd2)]
          simp

/-- C7 counterexample: `"0x10"` — a value with trailing non-digit
characters after the leading `0`, not a decimal numeral — is accepted by
`isNumeric` (`parseFloat` reads the prefix `0`, `isFinite` coerces the whole
string as the hex literal 16), refuting the "finite decimal number" iff as
stated. -/
theorem claim7_counterexample :
    isNumeric "0x10" = true ∧ parsesAsFiniteDecimal "0x10" = false := by
  decide
